import Mathlib

/-!
Verification of the core of the `traffic` daemon: the sliding-window rule
engine (`rules.rs`) and the firewall controller (`controller.rs`).

Conventions of the shallow embedding:

* Machine integers (`u64`, `usize`, `i64`) are modelled as `Nat` / `Int`.
  The quantities involved (byte counters, window sizes `≤ 60`, epoch
  seconds) never approach the overflow boundary in the scenarios the
  theorems quantify over.
* `chrono::DateTime<Utc>` instants are modelled as `Int` epoch seconds
  (`timestamp()` is the identity on this model); `Duration::seconds(s)`
  is addition of `s`.
* Fallible operations return `Except`; the effect of talking to the
  executor pool is modelled by passing the executor as an explicit
  oracle function and recording the commands submitted to it.
* `HashMap<String, FirewallRule>` is modelled as an association list
  (`List (String × FirewallRule)`); iteration order of the Rust map is
  unspecified, the list fixes one order.
-/

namespace Traffic

/-- Model of `std::net::IpAddr`: an IPv4 or IPv6 value.  The textual form
used in commands is carried in the constructor; the constructor itself
retains the family. -/
inductive IpAddr where
  | v4 (text : String)
  | v6 (text : String)
deriving DecidableEq, Repr

/-- Display of an address, as interpolated into nft commands. -/
def IpAddr.toString : IpAddr → String
  | .v4 s => s
  | .v6 s => s

/-- `HookType` from `safe_traffic_common::config`: chain hook direction. -/
inductive HookType where
  | input
  | output
deriving DecidableEq, Repr

/-- Modelled from the spec: the `Display` rendering of `HookType` used in
`add chain … hook <hook>` (the `safe_traffic_common` crate is not part of
the sources); §6 gives `hook ∈ {Input, Output}`, rendered in nft syntax. -/
def HookType.toString : HookType → String
  | .input => "input"
  | .output => "output"

/-- `FamilyType` from `safe_traffic_common::config`. -/
inductive FamilyType where
  | ip
  | ip6
  | inet
deriving DecidableEq, Repr

/-- Modelled from the spec: `Display` rendering of `FamilyType`; §6 gives
`family ∈ {ip, ip6, inet}`. -/
def FamilyType.toString : FamilyType → String
  | .ip => "ip"
  | .ip6 => "ip6"
  | .inet => "inet"

/-- `PolicyType` from `safe_traffic_common::config`. -/
inductive PolicyType where
  | accept
  | drop
deriving DecidableEq, Repr

/-- Modelled from the spec: `Display` rendering of `PolicyType`; §6 gives
`policy ∈ {Accept, Drop}`, rendered in nft syntax. -/
def PolicyType.toString : PolicyType → String
  | .accept => "accept"
  | .drop => "drop"

/-- `Action` from `safe_traffic_common::config` (shape as used by
`controller.rs` and `rules.rs`): a rate limit or a ban, each with an
optional duration in seconds. -/
inductive Action where
  | rateLimit (kbps : Nat) (burst : Option Nat) (seconds : Option Nat)
  | ban (seconds : Option Nat)
deriving DecidableEq, Repr

/-- Discriminator used by the duplicate-ban check
(`if let Action::Ban { .. } = rule.rule_type`). -/
def Action.isBan : Action → Bool
  | .ban _ => true
  | _ => false

/-- A configured rule (`safe_traffic_common::config::Rule` as used by
`rules.rs`): window length in seconds, threshold in bytes/second, the
action, and the rule's own exclusion list (`Rule::is_excluded`). -/
structure Rule where
  window_secs : Nat
  threshold_bps : Nat
  action : Action
  exclude : List IpAddr
deriving DecidableEq, Repr

/-- `Window` from `rules.rs`: circular buffer of byte samples, current
write position, timestamp of the last advance. -/
structure Window where
  buffer : List Nat
  pos : Nat
  last_ts : Int
deriving DecidableEq, Repr

/-- The sliding-window sum computed in `RuleEngine::check_and_apply`
(`rules.rs` lines 131–137):

`win.buffer.iter().cycle().skip((win.pos + win.buffer.len() - window_size) % win.buffer.len()).take(window_size).sum()`.

The `i`-th element yielded by `cycle().skip(start).take(w)` is
`buffer[(start + i) % len]`, which is how the iterator chain is denoted
here.  (`win.pos + len - window_size` is `usize` arithmetic in the
source; it does not underflow whenever `window_size ≤ len`, which is the
regime of every theorem below, and `Nat` subtraction agrees with it
there.) -/
def windowSum (win : Window) (window_size : Nat) : Nat :=
  let len := win.buffer.length
  let start := (win.pos + len - window_size) % len
  ((List.range window_size).map (fun i => win.buffer.getD ((start + i) % len) 0)).sum

/-- Claim-side definition: the sum of the `w` samples ending at slot `p`
(slots `p - w + 1 … p`, cyclically), as the spec's "windowed average
correctness" property words it. -/
def sumEndingAt (samples : List Nat) (p w : Nat) : Nat :=
  let len := samples.length
  ((List.range w).map (fun i => samples.getD ((p + len - w + 1 + i) % len) 0)).sum

/-- A call into the firewall controller made by the engine during a tick,
tagged with the address whose processing issued it.  `limit` and `ban`
are the threshold actions (`fw.limit(ip, kbps, burst, seconds)`,
`fw.ban(ip, seconds)`); `unblock` is the expiration sweep's
`fw.unblock(&id)`, issued while processing address `ip`. -/
inductive FwOp where
  | limit (ip : IpAddr) (kbps : Nat) (burst : Option Nat) (seconds : Option Nat)
  | ban (ip : IpAddr) (seconds : Option Nat)
  | unblock (ip : IpAddr) (id : String)
deriving DecidableEq, Repr

/-- The address whose per-address processing issued the call. -/
def FwOp.ipOf : FwOp → IpAddr
  | .limit ip _ _ _ => ip
  | .ban ip _ => ip
  | .unblock ip _ => ip

/-- Whether the call is a threshold invocation (ban or limit), as opposed
to an expiration-sweep unblock. -/
def FwOp.isInvocation : FwOp → Bool
  | .limit _ _ _ _ => true
  | .ban _ _ => true
  | .unblock _ _ => false

/-- The firewall invocation `check_and_apply` performs for a rule whose
threshold is crossed (`rules.rs` lines 142–169). -/
def invocationOf (rule : Rule) (ip : IpAddr) : FwOp :=
  match rule.action with
  | .rateLimit kbps burst seconds => .limit ip kbps burst seconds
  | .ban seconds => .ban ip seconds

/-- Oracles a tick consults: the controller's global exclusion set
(`fw.is_excluded`) and the expiration test (`fw.is_expiration`), both
read-only during a tick. -/
structure TickEnv where
  excluded : IpAddr → Bool
  expired : String → Nat → Bool

/-- The expiration sweep `RuleEngine::clean_expiration_rules`
(`rules.rs` lines 183–218) for one rule and one address, given the
engine's current id list for that address: for every known id, if the
governing action carries a finite `seconds` and `fw.is_expiration(id,
seconds)` holds, `fw.unblock(id)` is called.  Both action arms of the
source have this shape; indefinite actions sweep nothing. -/
def sweepOps (env : TickEnv) (rule : Rule) (ip : IpAddr) (ids : List String) : List FwOp :=
  match rule.action with
  | .rateLimit _ _ (some secs) =>
      (ids.filter (fun id => env.expired id secs)).map (fun id => .unblock ip id)
  | .rateLimit _ _ none => []
  | .ban (some secs) =>
      (ids.filter (fun id => env.expired id secs)).map (fun id => .unblock ip id)
  | .ban none => []

/-- One iteration of the `for rule in &self.rules` loop of
`check_and_apply` (`rules.rs` lines 123–175) for address `ip` with window
snapshot `win` and current per-address id list `ids`.  `newId` is the
rule id returned by the invoked `fw.ban` / `fw.limit` (appended to
`self.handles` as in lines 152–168).  Returns the controller calls made
and the updated id list. -/
def ruleStep (env : TickEnv) (newId : FwOp → String) (rule : Rule) (ip : IpAddr)
    (win : Window) (ids : List String) : List FwOp × List String :=
  if rule.exclude.contains ip then ([], ids)
  else
    let avg_bps := windowSum win rule.window_secs / rule.window_secs
    let (invs, ids₁) :=
      if avg_bps > rule.threshold_bps then
        let op := invocationOf rule ip
        ([op], ids ++ [newId op])
      else ([], ids)
    (invs ++ sweepOps env rule ip ids₁, ids₁)

/-- Per-address evaluation: the whole rule loop of `check_and_apply`,
folding the per-address id list through the rules in order. -/
def processEntry (env : TickEnv) (newId : FwOp → String) (rules : List Rule)
    (ip : IpAddr) (win : Window) (ids : List String) : List FwOp × List String :=
  match rules with
  | [] => ([], ids)
  | rule :: rest =>
      let (ops, ids₁) := ruleStep env newId rule ip win ids
      let (more, ids₂) := processEntry env newId rest ip win ids₁
      (ops ++ more, ids₂)

/-- The evaluation phase of one tick (`rules.rs` lines 112–179): the
snapshot entries are filtered by the controller's global exclusion and
each surviving address is evaluated against every rule.  `handles` is the
engine's per-address id list at the start of the tick.  The result is the
list of controller calls made during the tick (the all-successes path;
a failing call cuts this list short, see the short-circuit model below). -/
def tickOps (env : TickEnv) (newId : FwOp → String) (rules : List Rule)
    (handles : IpAddr → List String) (entries : List (IpAddr × Window)) : List FwOp :=
  (entries.filter (fun e => !env.excluded e.1)).flatMap
    (fun e => (processEntry env newId rules e.1 e.2 (handles e.1)).1)

/-- Sequential model of the tick's `try_for_each_concurrent` error
behaviour (`rules.rs` lines 112–180): entries are pulled in order and the
first per-address failure makes the combinator resolve to that error,
abandoning the remaining entries.  Returns the addresses whose evaluation
was started and the surfaced error, if any.  (Bounded concurrency only
permutes which in-flight entries finish; an erroring run never evaluates
the entries not yet pulled, which is what this model exhibits.) -/
def tickRun (evalAddr : IpAddr → Window → Except String (List FwOp)) :
    List (IpAddr × Window) → List IpAddr × Option String
  | [] => ([], none)
  | e :: rest =>
      match evalAddr e.1 e.2 with
      | .error err => ([e.1], some err)
      | .ok _ =>
          let (addrs, res) := tickRun evalAddr rest
          (e.1 :: addrs, res)

/-- Control signals carried by the engine's control channel. -/
inductive ControlSignal where
  | pause
  | resume
  | stop
deriving DecidableEq, Repr

/-- One event serviced by the `tokio::select!` loop of
`RuleEngine::start` (`rules.rs` lines 238–287): a control-channel
message (`none` models a closed channel), a timer tick carrying the
result of `check_and_apply`, or the resume notifier. -/
inductive LoopEvent where
  | control (signal : Option ControlSignal)
  | tick (result : Except String Unit)
  | resumeNotify

/-- The two atomic flags of the signal controller consulted by the loop. -/
structure LoopState where
  running : Bool
  stop_flag : Bool
deriving DecidableEq, Repr

/-- One iteration of the `RuleEngine::start` loop: the state update and
whether the loop `break`s.  On a tick whose `check_and_apply` returned an
error, the error is logged (`error!("check and apply failed: {}", e)`)
and the loop continues. -/
def engineStep (s : LoopState) (ev : LoopEvent) : LoopState × Bool :=
  match ev with
  | .control (some .pause) => ({ s with running := false }, false)
  | .control (some .resume) => ({ s with running := true }, false)
  | .control (some .stop) => ({ s with stop_flag := true }, true)
  | .control none => (s, true)
  | .tick _result => if s.stop_flag then (s, true) else (s, false)
  | .resumeNotify => (s, false)

/-! ### Firewall controller (`controller.rs`) -/

/-- Error kinds of the executor layer.  Modelled from the spec: the
`NftError` type lives in `nft.rs`, which is not among the sources; §7
lists `Timeout`, `ExecutorExited`, `ParseError` (and further kinds,
collapsed into `other`).  `controller.rs` only ever discriminates
`NftError::Timeout`. -/
inductive NftError where
  | timeout
  | executorExited
  | parseError (msg : String)
  | other (msg : String)
deriving DecidableEq, Repr

/-- Errors surfaced by controller operations: either an executor error
bubbled up unchanged or an `anyhow!` message created in `controller.rs`. -/
inductive FwErr where
  | nft (e : NftError)
  | msg (s : String)
deriving DecidableEq, Repr

/-- Modelled from the spec: the tagged objects produced by the output
parser (`nft.rs`, not among the sources); §4.2: "Produces an ordered
sequence of tagged objects; only `Add{handle: integer}` is consumed by
the core. Unknown shapes become `Other{raw}`."  The handle accessor
`get_handle` returns an optional integer.  Variants other than `Add` and
`Other` are treated identically to `Other` by every match in
`controller.rs` (its catch-all arm), so they are collapsed into `other`. -/
inductive NftObject where
  | add (handle : Option Nat)
  | other (raw : String)
deriving DecidableEq, Repr

/-- Executor oracles: `execute` (returns the command's stdout), `input`
(output discarded), `execute_batch` (a command sequence run atomically). -/
abbrev ExecE := String → Except NftError String
abbrev ExecI := String → Except NftError Unit
abbrev ExecB := List String → Except NftError String

/-- Parser oracle for `parse_output` (`nft.rs`, not among the sources). -/
abbrev ParseO := String → Except String (List NftObject)

/-- `FirewallRule` from `safe_traffic_common::utils` (shape as used by
`controller.rs`): synthetic id, address, action, creation instant, and
the kernel handle once known. -/
structure FirewallRule where
  id : String
  ip : IpAddr
  rule_type : Action
  created_at : Int
  handle : Option String
deriving DecidableEq, Repr

/-- The `Firewall` controller state (`controller.rs` lines 16–28); the
executor reference is passed to each operation as an oracle instead, and
`nft_available` is a parameter of construction. -/
structure Firewall where
  family : FamilyType
  table_name : String
  chain_name : String
  hook : HookType
  priority : Int
  policy : PolicyType
  rules : List (String × FirewallRule)
  global_exclude : List IpAddr
deriving DecidableEq, Repr

/-- `HashMap::insert`: replace any binding of `id`, add the new one. -/
def insertRule (rules : List (String × FirewallRule)) (id : String)
    (r : FirewallRule) : List (String × FirewallRule) :=
  (id, r) :: rules.filter (fun p => !(p.1 == id))

/-- Result of one controller operation: the value or error returned, the
commands submitted to the executor (in order), and the post-state. -/
structure OpResult (α : Type) where
  result : Except FwErr α
  cmds : List String
  fw : Firewall
deriving Repr

/-- Direction selector derived from the hook
(`controller.rs` lines 245–248 and 400–403). -/
def directionStr : HookType → String
  | .input => "saddr"
  | .output => "daddr"

/-- Address-match prefix selected by the address family
(`controller.rs` lines 250–253 and 404–407). -/
def ipVersionStr : IpAddr → String
  | .v4 _ => "ip"
  | .v6 _ => "ip6"

/-- The command built by `Firewall::create_ban_rule`
(`controller.rs` lines 409–412). -/
def banCmd (fw : Firewall) (ip : IpAddr) : String :=
  "add rule " ++ fw.family.toString ++ " " ++ fw.table_name ++ " " ++ fw.chain_name
    ++ " " ++ ipVersionStr ip ++ " " ++ directionStr fw.hook ++ " " ++ ip.toString
    ++ " drop"

/-- The command built by `Firewall::create_limit_rule`
(`controller.rs` lines 255–258). -/
def limitCmd (fw : Firewall) (ip : IpAddr) (kbps burst : Nat) : String :=
  "add rule " ++ fw.family.toString ++ " " ++ fw.table_name ++ " " ++ fw.chain_name
    ++ " " ++ ipVersionStr ip ++ " " ++ directionStr fw.hook ++ " " ++ ip.toString
    ++ " limit rate " ++ Nat.repr kbps ++ " kbytes/second burst " ++ Nat.repr burst
    ++ " kbytes drop"

/-- The command built by `Firewall::remove_rule_by_handle`
(`controller.rs` lines 471–474). -/
def deleteCmd (fw : Firewall) (handle : String) : String :=
  "delete rule " ++ fw.family.toString ++ " " ++ fw.table_name ++ " " ++ fw.chain_name
    ++ " handle " ++ handle

/-- The command built by `Firewall::flush` (`controller.rs` lines 515–518). -/
def flushCmd (fw : Firewall) : String :=
  "flush chain " ++ fw.family.toString ++ " " ++ fw.table_name ++ " " ++ fw.chain_name

/-- The per-address command built by `Firewall::batch_ban`
(`controller.rs` lines 595–603): the fourth `format!` slot is the fused
selector `"ip saddr"` / `"ip6 saddr"`, chosen by address family alone. -/
def batchBanCmd (fw : Firewall) (ip : IpAddr) : String :=
  let ip_version := match ip with
    | .v4 _ => "ip saddr"
    | .v6 _ => "ip6 saddr"
  "add rule " ++ fw.family.toString ++ " " ++ fw.table_name ++ " " ++ fw.chain_name
    ++ " " ++ ip_version ++ " " ++ ip.toString ++ " drop"

/-- Extraction of the kernel handle from the parsed output, shared by
`ban` / `infinity_ban` / `create_limit_rule` (`controller.rs` lines
319–334, 367–382, 265–280): the first object must be `Add` carrying a
handle; the handle is stored stringified (`u64::to_string`, i.e. decimal
`Nat.repr`). -/
def extractHandle : List NftObject → Except String String
  | [] => .error "fail to  get output  after adding rule"
  | .add (some n) :: _ => .ok (Nat.repr n)
  | .add none :: _ => .error "fail to get "
  | .other raw :: _ => .error ("parse output error: " ++ raw)

/-- `Firewall::create_ban_rule` (`controller.rs` lines 399–417): submit
the drop command via `execute`, return its raw output. -/
def Firewall.create_ban_rule (fw : Firewall) (exec : ExecE) (ip : IpAddr) :
    Except NftError String × List String :=
  let cmd := banCmd fw ip
  (exec cmd, [cmd])

/-- `Firewall::infinity_ban` (`controller.rs` lines 352–396). -/
def Firewall.infinity_ban (fw : Firewall) (exec : ExecE) (parse : ParseO)
    (now : Int) (ip : IpAddr) : OpResult String :=
  let rule_id := "ban_" ++ ip.toString
  match List.lookup rule_id fw.rules with
  | some _ => ⟨.ok rule_id, [], fw⟩
  | none =>
      let cmd := banCmd fw ip
      match exec cmd with
      | .error e => ⟨.error (.nft e), [cmd], fw⟩
      | .ok out =>
          match parse out with
          | .error e => ⟨.error (.msg e), [cmd], fw⟩
          | .ok objs =>
              match extractHandle objs with
              | .error e => ⟨.error (.msg e), [cmd], fw⟩
              | .ok handle =>
                  let rule : FirewallRule :=
                    ⟨rule_id, ip, .ban none, now, some handle⟩
                  ⟨.ok rule_id, [cmd],
                    { fw with rules := insertRule fw.rules rule_id rule }⟩

/-- `Firewall::ban` (`controller.rs` lines 286–350).  `now` models the
`Utc::now()` taken at entry; `until = now + seconds` and rule ids use
`until.timestamp()`.  The duplicate check walks the registry: any entry
for the same address whose `rule_type` is a `Ban` and whose
`created_at + duration` (the *new* duration) is still in the future is
returned as-is, with no command issued. -/
def Firewall.ban (fw : Firewall) (exec : ExecE) (parse : ParseO)
    (now : Int) (ip : IpAddr) (seconds : Option Nat) : OpResult String :=
  match seconds with
  | none => fw.infinity_ban exec parse now ip
  | some secs =>
      let until_ : Int := now + (secs : Int)
      let rule_id := "ban_" ++ ip.toString ++ "_" ++ toString until_
      match fw.rules.find? (fun p =>
          decide (p.2.ip = ip) && p.2.rule_type.isBan
            && decide (p.2.created_at + (secs : Int) > now)) with
      | some p => ⟨.ok p.2.id, [], fw⟩
      | none =>
          let cmd := banCmd fw ip
          match exec cmd with
          | .error e => ⟨.error (.nft e), [cmd], fw⟩
          | .ok out =>
              match parse out with
              | .error e => ⟨.error (.msg e), [cmd], fw⟩
              | .ok objs =>
                  match extractHandle objs with
                  | .error e => ⟨.error (.msg e), [cmd], fw⟩
                  | .ok handle =>
                      let rule : FirewallRule :=
                        ⟨rule_id, ip, .ban (some secs), now, some handle⟩
                      ⟨.ok rule_id, [cmd],
                        { fw with rules := insertRule fw.rules rule_id rule }⟩

/-- Burst default: `kbps.min(1024) / 10`
(`controller.rs` lines 123–127 and 186–190). -/
def burstDefault (kbps : Nat) (burst : Option Nat) : Nat :=
  match burst with
  | some bur => bur
  | none => min kbps 1024 / 10

/-- `Firewall::infinity_limit` (`controller.rs` lines 116–167). -/
def Firewall.infinity_limit (fw : Firewall) (exec : ExecE) (parse : ParseO)
    (now : Int) (ip : IpAddr) (kbps : Nat) (burst : Option Nat) : OpResult String :=
  let rule_id := "limit_" ++ ip.toString ++ "_" ++ Nat.repr kbps
  let burst := burstDefault kbps burst
  let dup : Bool :=
    match List.lookup rule_id fw.rules with
    | some existing_rule =>
        match existing_rule.rule_type with
        | .rateLimit existing_kbps _ _ => existing_kbps == kbps
        | _ => false
    | none => false
  if dup then ⟨.ok rule_id, [], fw⟩
  else
    let cmd := limitCmd fw ip kbps burst
    match exec cmd with
    | .error e => ⟨.error (.nft e), [cmd], fw⟩
    | .ok out =>
        match parse out with
        | .error e => ⟨.error (.msg e), [cmd], fw⟩
        | .ok objs =>
            match extractHandle objs with
            | .error e => ⟨.error (.msg e), [cmd], fw⟩
            | .ok handle =>
                let rule : FirewallRule :=
                  ⟨rule_id, ip, .rateLimit kbps (some burst) none, now, some handle⟩
                ⟨.ok rule_id, [cmd],
                  { fw with rules := insertRule fw.rules rule_id rule }⟩

/-- `Firewall::limit` (`controller.rs` lines 169–237). -/
def Firewall.limit (fw : Firewall) (exec : ExecE) (parse : ParseO)
    (now : Int) (ip : IpAddr) (kbps : Nat) (burst : Option Nat)
    (seconds : Option Nat) : OpResult String :=
  match seconds with
  | none => fw.infinity_limit exec parse now ip kbps burst
  | some secs =>
      let until_ : Int := now + (secs : Int)
      let rule_id := "limit_" ++ ip.toString ++ "_" ++ Nat.repr kbps
        ++ "_" ++ toString until_
      let burst := burstDefault kbps burst
      match fw.rules.find? (fun p =>
          decide (p.2.ip = ip)
            && (match p.2.rule_type with
                | .rateLimit existing_kbps _ sec =>
                    decide (p.2.created_at + (secs : Int) > now)
                      && existing_kbps == kbps && sec == some secs
                | _ => false)) with
      | some p => ⟨.ok p.2.id, [], fw⟩
      | none =>
          let cmd := limitCmd fw ip kbps burst
          match exec cmd with
          | .error e => ⟨.error (.nft e), [cmd], fw⟩
          | .ok out =>
              match parse out with
              | .error e => ⟨.error (.msg e), [cmd], fw⟩
              | .ok objs =>
                  match extractHandle objs with
                  | .error e => ⟨.error (.msg e), [cmd], fw⟩
                  | .ok handle =>
                      let rule : FirewallRule :=
                        ⟨rule_id, ip, .rateLimit kbps (some burst) (some secs),
                          now, some handle⟩
                      ⟨.ok rule_id, [cmd],
                        { fw with rules := insertRule fw.rules rule_id rule }⟩

/-- `Firewall::is_expiration` (`controller.rs` lines 419–434):
`now > created_at + seconds` for a present id, `false` for a missing one. -/
def Firewall.is_expiration (fw : Firewall) (now : Int) (rule_id : String)
    (seconds : Nat) : Bool :=
  match List.lookup rule_id fw.rules with
  | some rule => decide (now > rule.created_at + (seconds : Int))
  | none => false

/-- `Firewall::unblock` (`controller.rs` lines 437–465): look up the
rule (error if absent), take its handle (error if absent), submit one
`delete rule … handle H` via `input` (error aborts before any registry
write), then remove the id from the registry. -/
def Firewall.unblock (fw : Firewall) (execInput : ExecI) (id : String) : OpResult Unit :=
  match List.lookup id fw.rules with
  | none => ⟨.error (.msg ("fail to get rule by id: " ++ id)), [], fw⟩
  | some rule =>
      match rule.handle with
      | none => ⟨.error (.msg ("rule has no handle: " ++ id)), [], fw⟩
      | some handle =>
          let cmd := deleteCmd fw handle
          match execInput cmd with
          | .error e => ⟨.error (.nft e), [cmd], fw⟩
          | .ok _ =>
              let rules' := fw.rules.filter (fun p => !(p.1 == id))
              match List.lookup id fw.rules with
              | some _ => ⟨.ok (), [cmd], { fw with rules := rules' }⟩
              | none =>
                  ⟨.error (.msg ("fail to remove rule, maybe not exist: " ++ id)),
                    [cmd], { fw with rules := rules' }⟩

/-- `Firewall::flush` (`controller.rs` lines 503–529): an empty registry
returns `Ok(0)` *before* any command is built; otherwise one
`flush chain` command is submitted and, on success, the registry is
cleared and its previous size returned. -/
def Firewall.flush (fw : Firewall) (execInput : ExecI) : OpResult Nat :=
  let rule_count := fw.rules.length
  if rule_count == 0 then ⟨.ok 0, [], fw⟩
  else
    let cmd := flushCmd fw
    match execInput cmd with
    | .error e => ⟨.error (.nft e), [cmd], fw⟩
    | .ok _ => ⟨.ok rule_count, [cmd], { fw with rules := [] }⟩

/-- `Firewall::batch_ban` (`controller.rs` lines 586–631): build one
command per address (direction hard-wired to `saddr`), submit them as a
single batch, then register every address with a synthesized placeholder
handle.  The `cmds` field lists the batch's commands in order. -/
def Firewall.batch_ban (fw : Firewall) (execBatch : ExecB) (now : Int)
    (ips : List IpAddr) (seconds : Nat) : OpResult (List String) :=
  let until_ : Int := now + (seconds : Int)
  let rule_ids := ips.map (fun ip => "ban_" ++ ip.toString ++ "_" ++ toString until_)
  let commands := ips.map (batchBanCmd fw)
  match execBatch commands with
  | .error e => ⟨.error (.nft e), commands, fw⟩
  | .ok _ =>
      let rules' := (ips.zip rule_ids).foldl
        (fun acc p =>
          let rule : FirewallRule :=
            ⟨p.2, p.1, .ban (some seconds), now,
              some ("ban_" ++ p.1.toString ++ "_" ++ toString now)⟩
          insertRule acc p.2 rule)
        fw.rules
      ⟨.ok rule_ids, commands, { fw with rules := rules' }⟩

/-- `Firewall::is_excluded` (`controller.rs` lines 633–635). -/
def Firewall.is_excluded (fw : Firewall) (ip : IpAddr) : Bool :=
  fw.global_exclude.contains ip

/-- The two commands built by `Firewall::init_table_and_chain`
(`controller.rs` lines 79–90); note the literal braces and double space
of the `add chain` format string. -/
def initCommands (fw : Firewall) : List String :=
  ["add table " ++ fw.family.toString ++ " " ++ fw.table_name,
   "add chain " ++ fw.family.toString ++ " " ++ fw.table_name ++ " " ++ fw.chain_name
     ++ " \x7b type filter hook " ++ fw.hook.toString ++ " priority "
     ++ toString fw.priority ++ "  ; policy " ++ fw.policy.toString ++ " ; \x7d"]

/-- `Firewall::init_table_and_chain` (`controller.rs` lines 78–113): the
two commands are submitted as one batch; a `Timeout` error is logged and
swallowed (returns `Ok`), any other error is returned.  The second
component records the batches submitted. -/
def Firewall.init_table_and_chain (fw : Firewall) (execBatch : ExecB) :
    Except FwErr Unit × List (List String) :=
  let commands := initCommands fw
  match execBatch commands with
  | .ok _ => (.ok (), [commands])
  | .error .timeout => (.ok (), [commands])
  | .error e => (.error (.nft e), [commands])

/-- `Firewall::new` (`controller.rs` lines 33–74), after config defaults
are resolved into `fw`: when nftables is available the table and chain
are initialized and an initialization error aborts construction;
otherwise mock mode skips initialization. -/
def Firewall.new (fw : Firewall) (nft_available : Bool) (execBatch : ExecB) :
    Except FwErr Firewall × List (List String) :=
  if nft_available then
    match fw.init_table_and_chain execBatch with
    | (.ok _, batches) => (.ok fw, batches)
    | (.error e, batches) => (.error e, batches)
  else (.ok fw, [])

/-! ### Claim-side definitions and concrete fixtures -/

/-- Claim-side definition: the shape C8 mandates for a ban command, with
an explicit direction selector argument. -/
def specBanCmdDir (fw : Firewall) (ip : IpAddr) (dir : String) : String :=
  "add rule " ++ fw.family.toString ++ " " ++ fw.table_name ++ " " ++ fw.chain_name
    ++ " " ++ ipVersionStr ip ++ " " ++ dir ++ " " ++ ip.toString ++ " drop"

/-- Claim-side definition: the shape C8 mandates for *every* emitted ban
command — direction derived from the hook (`Input ⇒ saddr`,
`Output ⇒ daddr`), address-match prefix from the address family. -/
def specBanCmdForm (fw : Firewall) (ip : IpAddr) : String :=
  specBanCmdDir fw ip (directionStr fw.hook)

/-- The registry invariant of C6 on the underlying association list:
every present id maps to a rule carrying a non-empty handle. -/
def HandlesNonEmpty (rules : List (String × FirewallRule)) : Prop :=
  ∀ p ∈ rules, ∃ h, p.2.handle = some h ∧ h ≠ ""

/-- Fixture address. -/
def ip1 : IpAddr := .v4 "10.0.0.1"

/-- Fixture controller on the default configuration (hook `Input`),
empty registry. -/
def fwInput : Firewall :=
  ⟨.inet, "traffic_filter", "traffic_input", .input, 0, .accept, [], []⟩

/-- Fixture controller with hook `Output`. -/
def fwOutput : Firewall := { fwInput with hook := .output }

/-- Fixture registry entry: a 60-second ban of `10.0.0.1` created at
epoch second 40, so it expires at 100, with kernel handle `7`. -/
def entryB : FirewallRule := ⟨"ban_10.0.0.1_100", ip1, .ban (some 60), 40, some "7"⟩

/-- Fixture controller whose registry holds `entryB`. -/
def fwBanned : Firewall := { fwInput with rules := [("ban_10.0.0.1_100", entryB)] }

/-- Executor stubs that always succeed, and failing batch stubs. -/
def execEOk : ExecE := fun _ => .ok "out"

/-- Stub `input` executor that always succeeds. -/
def execIOk : ExecI := fun _ => .ok ()

/-- Stub batch executor that always succeeds. -/
def execBOk : ExecB := fun _ => .ok "out"

/-- Stub batch executor that always times out. -/
def execBTimeout : ExecB := fun _ => .error .timeout

/-- Stub batch executor failing with a non-timeout error. -/
def execBFail : ExecB := fun _ => .error (.other "boom")

/-- Stub parser yielding one `Add` object with handle 7. -/
def parseOk : ParseO := fun _ => .ok [.add (some 7)]

/-! ### Helper lemmas -/

/-- Bridge between the `List.range`-sum in the iterator embedding and the
`Finset.range` sum used in claim statements. -/
theorem list_range_map_sum (w : Nat) (f : Nat → Nat) :
    ((List.range w).map f).sum = ∑ i ∈ Finset.range w, f i := by
  induction w with
  | zero => simp
  | succ n ih =>
      rw [List.range_succ, List.map_append, List.sum_append, ih,
        Finset.sum_range_succ]
      simp

/-- The threshold invocation built from a rule is a `limit` or `ban` call. -/
theorem invocationOf_isInvocation (rule : Rule) (ip : IpAddr) :
    (invocationOf rule ip).isInvocation = true := by
  cases h : rule.action <;> simp [invocationOf, h, FwOp.isInvocation]

/-- The threshold invocation built from a rule targets that rule's address. -/
theorem invocationOf_ipOf (rule : Rule) (ip : IpAddr) :
    (invocationOf rule ip).ipOf = ip := by
  cases h : rule.action <;> simp [invocationOf, h, FwOp.ipOf]

/-- Expiration-sweep calls are never threshold invocations. -/
theorem sweepOps_filter_invocation (env : TickEnv) (rule : Rule) (ip : IpAddr)
    (ids : List String) :
    (sweepOps env rule ip ids).filter FwOp.isInvocation = [] := by
  unfold sweepOps
  cases rule.action with
  | rateLimit k b s =>
      cases s with
      | none => rfl
      | some secs => simp [List.filter_map, Function.comp_def, FwOp.isInvocation]
  | ban s =>
      cases s with
      | none => rfl
      | some secs => simp [List.filter_map, Function.comp_def, FwOp.isInvocation]

/-- Every expiration-sweep call carries the address being processed. -/
theorem sweepOps_ipOf (env : TickEnv) (rule : Rule) (ip : IpAddr)
    (ids : List String) :
    ∀ op ∈ sweepOps env rule ip ids, op.ipOf = ip := by
  unfold sweepOps
  cases rule.action with
  | rateLimit k b s =>
      cases s with
      | none => simp
      | some secs =>
          intro op hop
          obtain ⟨id, _, rfl⟩ := List.mem_map.mp hop
          rfl
  | ban s =>
      cases s with
      | none => simp
      | some secs =>
          intro op hop
          obtain ⟨id, _, rfl⟩ := List.mem_map.mp hop
          rfl

/-- Every controller call made by one rule iteration carries the address
being processed. -/
theorem ruleStep_ipOf (env : TickEnv) (newId : FwOp → String) (rule : Rule)
    (ip : IpAddr) (win : Window) (ids : List String) :
    ∀ op ∈ (ruleStep env newId rule ip win ids).1, op.ipOf = ip := by
  unfold ruleStep
  split
  · simp
  · by_cases hth : rule.threshold_bps < windowSum win rule.window_secs / rule.window_secs
    · simp only [if_pos hth]
      intro op hop
      rcases List.mem_append.mp hop with h | h
      · rcases List.mem_singleton.mp h with rfl
        exact invocationOf_ipOf rule ip
      · exact sweepOps_ipOf env rule ip _ op h
    · simp only [if_neg hth]
      intro op hop
      rcases List.mem_append.mp hop with h | h
      · cases h
      · exact sweepOps_ipOf env rule ip _ op h

/-- Every controller call made by per-address evaluation carries that
address. -/
theorem processEntry_ipOf (env : TickEnv) (newId : FwOp → String)
    (rules : List Rule) (ip : IpAddr) (win : Window) (ids : List String) :
    ∀ op ∈ (processEntry env newId rules ip win ids).1, op.ipOf = ip := by
  induction rules generalizing ids with
  | nil => simp [processEntry]
  | cons rule rest ih =>
      intro op hop
      unfold processEntry at hop
      simp only at hop
      rcases List.mem_append.mp hop with h | h
      · exact ruleStep_ipOf env newId rule ip win ids op h
      · exact ih _ op h

/-! ### C1: windowed average -/

/-- Claim C1 as stated is false on the code: with the buffer holding the
samples `10, 20, 30` written in order (slot `i` holds `s_i`, write
position `p = 2`) and window `w = 2 ≤ 3 = n`, the tick computes
`(10 + 20) / 2 = 15` — the window starting at `(p + n - w) % n` covers
slots `0,1`, i.e. the `w` samples ending at slot `p - 1` — whereas the
claimed value, the `w` samples ending at slot `p`, is
`(20 + 30) / 2 = 25`. -/
theorem C1_counterexample :
    ¬ (windowSum ⟨[10, 20, 30], 2, 0⟩ 2 / 2 = sumEndingAt [10, 20, 30] 2 2 / 2) := by
  decide

/-- C1 (amended): for a buffer holding samples `s_0 … s_{n-1}` in order
with write position `p` and a window `w ≤ n`, the average computed during
a tick equals the sum of the `w` samples ending at slot `(p + n - 1) % n`
— the slot *before* the write position — divided by `w` with truncating
division. -/
theorem C1_theorem (samples : List Nat) (p w : Nat) (ts : Int)
    (hp : p < samples.length) (hw : w ≤ samples.length) :
    windowSum ⟨samples, p, ts⟩ w / w
      = sumEndingAt samples ((p + samples.length - 1) % samples.length) w / w := by
  have hlen : 0 < samples.length := Nat.lt_of_le_of_lt (Nat.zero_le p) hp
  congr 1
  simp only [windowSum, sumEndingAt]
  congr 1
  apply List.map_congr_left
  intro i _
  congr 1
  rw [Nat.add_sub_assoc hw p, Nat.mod_add_mod,
    Nat.add_sub_assoc hw ((p + samples.length - 1) % samples.length)]
  have h1 : (p + samples.length - 1) % samples.length
        + (samples.length - w) + 1 + i
      = (p + samples.length - 1) % samples.length
        + ((samples.length - w) + 1 + i) := by omega
  rw [h1, Nat.mod_add_mod]
  have h2 : p + samples.length - 1 + ((samples.length - w) + 1 + i)
      = p + (samples.length - w) + i + samples.length := by omega
  rw [h2, Nat.add_mod_right]

/-- Witness for C1 (amended) at samples `[10, 20, 30]`, `p = 2`, `w = 2`:
the code averages slots `0,1`, i.e. the two samples ending at slot
`(2 + 3 - 1) % 3 = 1`. -/
theorem C1_witness :
    2 < ([10, 20, 30] : List Nat).length ∧
    windowSum ⟨[10, 20, 30], 2, 0⟩ 2 / 2
      = sumEndingAt [10, 20, 30]
          ((2 + ([10, 20, 30] : List Nat).length - 1) % ([10, 20, 30] : List Nat).length)
          2 / 2 :=
  ⟨by decide, C1_theorem [10, 20, 30] 2 2 0 (by decide) (by decide)⟩

/-! ### C2: tick evaluation mechanism -/

/-- Claim C2: during a tick, for an address a rule does not exclude, the
engine sums `window_secs` buffer slots read cyclically starting at index
`(pos + len - window_secs) % len`, divides by `window_secs` (truncating)
to get the average, and makes the firewall ban or limit call (per the
rule's action) if and only if this average is strictly greater than
`threshold_bps`. -/
theorem C2_theorem (env : TickEnv) (newId : FwOp → String) (rule : Rule)
    (ip : IpAddr) (win : Window) (ids : List String)
    (hexcl : rule.exclude.contains ip = false) :
    (ruleStep env newId rule ip win ids).1.filter FwOp.isInvocation
      = if (∑ i ∈ Finset.range rule.window_secs,
              win.buffer.getD
                (((win.pos + win.buffer.length - rule.window_secs) % win.buffer.length + i)
                  % win.buffer.length) 0)
            / rule.window_secs > rule.threshold_bps
        then [invocationOf rule ip] else [] := by
  have hsum : windowSum win rule.window_secs
      = ∑ i ∈ Finset.range rule.window_secs,
          win.buffer.getD
            (((win.pos + win.buffer.length - rule.window_secs) % win.buffer.length + i)
              % win.buffer.length) 0 := by
    simp only [windowSum]
    exact list_range_map_sum _ _
  rw [← hsum]
  unfold ruleStep
  split
  · rename_i h
    rw [hexcl] at h
    exact Bool.noConfusion h
  · by_cases hth : rule.threshold_bps < windowSum win rule.window_secs / rule.window_secs
    · simp only [if_pos hth]
      rw [List.filter_append, sweepOps_filter_invocation]
      simp [invocationOf_isInvocation, hth]
    · simp only [if_neg hth]
      rw [List.filter_append, sweepOps_filter_invocation]
      simp [hth]

/-- Witness for C2: a rule with window 2 and threshold 20 over the buffer
`[10, 20, 30]` at position 2 sees average `(10 + 20) / 2 = 15 ≤ 20` and
makes no firewall call. -/
theorem C2_witness :
    (ruleStep ⟨fun _ => false, fun _ _ => false⟩ (fun _ => "id-1")
        ⟨2, 20, .ban (some 60), []⟩ (.v4 "10.0.0.1") ⟨[10, 20, 30], 2, 0⟩ []).1.filter
      FwOp.isInvocation = [] := by
  rw [C2_theorem _ _ _ _ _ _ (by decide)]
  decide

/-! ### C3: error handling in a tick and in the main loop -/

/-- Claim C3 is half false: a per-address failure does *not* let the tick
continue with the remaining addresses.  Concretely, with two addresses
where the first one's evaluation fails, the `try_for_each_concurrent`
combinator resolves to the error and the second address is never
evaluated. -/
theorem C3_counterexample :
    (tickRun
        (fun ip _ => if ip = IpAddr.v4 "10.0.0.1" then .error "fw error" else .ok [])
        [(IpAddr.v4 "10.0.0.1", ⟨[0], 0, 0⟩), (IpAddr.v4 "10.0.0.2", ⟨[0], 0, 0⟩)]).2
      = some "fw error"
    ∧ IpAddr.v4 "10.0.0.2" ∉
        (tickRun
          (fun ip _ => if ip = IpAddr.v4 "10.0.0.1" then .error "fw error" else .ok [])
          [(IpAddr.v4 "10.0.0.1", ⟨[0], 0, 0⟩), (IpAddr.v4 "10.0.0.2", ⟨[0], 0, 0⟩)]).1 := by
  decide

/-- C3 (amended): if a firewall-mutating operation fails during a tick's
evaluation phase, the tick stops early — the error short-circuits the
per-address combinator, so the addresses after the failing one are not
evaluated in that tick and the error surfaces from `check_and_apply`;
the main loop handles a tick error by logging it and continuing: it
never breaks on a failed evaluation. -/
theorem C3_theorem :
    (∀ (f : IpAddr → Window → Except String (List FwOp))
        (pre : List (IpAddr × Window)) (ip : IpAddr) (win : Window)
        (post : List (IpAddr × Window)) (err : String),
        (∀ e ∈ pre, ∃ ops, f e.1 e.2 = Except.ok ops) →
        f ip win = .error err →
        tickRun f (pre ++ (ip, win) :: post)
          = (pre.map Prod.fst ++ [ip], some err))
    ∧ (∀ (s : LoopState) (r : Except String Unit),
        s.stop_flag = false → engineStep s (.tick r) = (s, false)) := by
  constructor
  · intro f pre ip win post err hok herr
    induction pre with
    | nil => simp [tickRun, herr]
    | cons e rest ih =>
        obtain ⟨ops, hops⟩ := hok e (by simp)
        have := ih (fun a ha => hok a (by simp [ha]))
        simp [tickRun, hops, this]
  · intro s r h
    simp [engineStep, h]

/-- Witness for C3: the failing first address yields the error with the
second address unevaluated, and the loop step on that tick error does not
break. -/
theorem C3_witness :
    tickRun
        (fun ip _ => if ip = IpAddr.v4 "10.0.0.1" then .error "fw error" else .ok [])
        [(IpAddr.v4 "10.0.0.1", ⟨[0], 0, 0⟩), (IpAddr.v4 "10.0.0.2", ⟨[0], 0, 0⟩)]
      = ([IpAddr.v4 "10.0.0.1"], some "fw error")
    ∧ engineStep ⟨true, false⟩ (.tick (.error "fw error")) = (⟨true, false⟩, false) := by
  refine ⟨?_, C3_theorem.2 ⟨true, false⟩ (.error "fw error") rfl⟩
  have h := C3_theorem.1
    (fun ip _ => if ip = IpAddr.v4 "10.0.0.1" then .error "fw error" else .ok [])
    [] (IpAddr.v4 "10.0.0.1") ⟨[0], 0, 0⟩ [(IpAddr.v4 "10.0.0.2", ⟨[0], 0, 0⟩)]
    "fw error" (by simp) (by rfl)
  simpa using h

/-! ### C5: global exclusion -/

/-- Claim C5: if the controller's global exclusion holds for an address at
the start of a tick, no firewall-controller call — hence no
firewall-mutating command — is made for that address during the tick:
every call the tick makes is tagged with a non-excluded address. -/
theorem C5_theorem (env : TickEnv) (newId : FwOp → String) (rules : List Rule)
    (handles : IpAddr → List String) (entries : List (IpAddr × Window))
    (A : IpAddr) (hA : env.excluded A = true) :
    ∀ op ∈ tickOps env newId rules handles entries, op.ipOf ≠ A := by
  intro op hop
  unfold tickOps at hop
  obtain ⟨e, he, hope⟩ := List.mem_flatMap.mp hop
  have hip := processEntry_ipOf env newId rules e.1 e.2 (handles e.1) op hope
  have hfilter := (List.mem_filter.mp he).2
  rw [hip]
  intro hcontr
  rw [hcontr, hA] at hfilter
  simp at hfilter

/-- Witness for C5: with `10.0.0.9` excluded and `10.0.0.1` crossing the
threshold, the tick's ban call targets `10.0.0.1`, not the excluded
address. -/
theorem C5_witness :
    (FwOp.ban (IpAddr.v4 "10.0.0.1") (some 60)).ipOf ≠ IpAddr.v4 "10.0.0.9" :=
  C5_theorem ⟨fun ip => decide (ip = IpAddr.v4 "10.0.0.9"), fun _ _ => false⟩
    (fun _ => "ban_10.0.0.1_60") [⟨2, 20, .ban (some 60), []⟩] (fun _ => [])
    [(IpAddr.v4 "10.0.0.9", ⟨[100, 100, 100], 2, 0⟩),
     (IpAddr.v4 "10.0.0.1", ⟨[100, 100, 100], 2, 0⟩)]
    (IpAddr.v4 "10.0.0.9") (by decide)
    (FwOp.ban (IpAddr.v4 "10.0.0.1") (some 60)) (by decide)

/-! ### Controller helper lemmas -/

/-- With positive fuel, `Nat.toDigitsCore` never returns the empty list. -/
theorem toDigitsCore_ne_nil (b f n : Nat) (l : List Char) :
    Nat.toDigitsCore b (f + 1) n l ≠ [] := by
  rw [Nat.toDigitsCore]
  split
  · exact List.cons_ne_nil _ _
  · intro hnil
    have hlen := Nat.toDigitsCore_lens_eq b f (n / b) (Nat.digitChar (n % b)) l
    rw [hnil] at hlen
    simp at hlen

/-- The decimal rendering of a natural number is never the empty string. -/
theorem nat_repr_ne_empty (n : Nat) : Nat.repr n ≠ "" := by
  intro h
  apply toDigitsCore_ne_nil 10 n n []
  have h2 : (Nat.toDigits 10 n).asString.data = ([] : List Char) := by
    rw [show (Nat.toDigits 10 n).asString = Nat.repr n from rfl, h]
  simpa [Nat.toDigits] using h2

/-- A successfully extracted handle is the decimal rendering of the parsed
integer handle — in particular non-empty. -/
theorem extractHandle_ok (objs : List NftObject) (h : String)
    (heq : extractHandle objs = .ok h) : ∃ n, h = Nat.repr n := by
  match objs with
  | [] => exact absurd heq (by simp [extractHandle])
  | .add (some n) :: rest =>
      refine ⟨n, ?_⟩
      simpa [extractHandle] using heq.symm
  | .add none :: rest => exact absurd heq (by simp [extractHandle])
  | .other raw :: rest => exact absurd heq (by simp [extractHandle])

/-- A string starting with the literal `ban_` is non-empty. -/
theorem ban_prefixed_ne_empty (x y : String) : "ban_" ++ x ++ "_" ++ y ≠ "" := by
  intro h
  have hlen := congrArg String.length h
  rw [String.length_append, String.length_append, String.length_append] at hlen
  have h4 : ("ban_" : String).length = 4 := rfl
  have h0 : ("" : String).length = 0 := rfl
  omega

/-- `HashMap::insert` preserves the non-empty-handle invariant when the
inserted rule satisfies it. -/
theorem insertRule_pres (rules : List (String × FirewallRule)) (id : String)
    (r : FirewallRule) (hr : ∃ h, r.handle = some h ∧ h ≠ "")
    (hrs : HandlesNonEmpty rules) : HandlesNonEmpty (insertRule rules id r) := by
  intro p hp
  rcases List.mem_cons.mp hp with rfl | hp'
  · exact hr
  · exact hrs p (List.mem_of_mem_filter hp')

/-- After removing an id, it is no longer found in the registry. -/
theorem lookup_filter_self (l : List (String × FirewallRule)) (id : String) :
    List.lookup id (l.filter (fun p => !(p.1 == id))) = none := by
  induction l with
  | nil => rfl
  | cons p l ih =>
      by_cases h : p.1 == id
      · simpa [List.filter, h] using ih
      · have h' : (id == p.1) = false := by
          have hne : p.1 ≠ id := by simpa using h
          exact beq_eq_false_iff_ne.mpr (fun hc => hne hc.symm)
        simpa [List.filter, h, List.lookup, h'] using ih

/-- The registration fold of `batch_ban` preserves the invariant: every
rule it inserts carries a synthesized non-empty placeholder handle. -/
theorem batchBan_fold_pres (now : Int) (seconds : Nat) (l : List (IpAddr × String))
    (acc : List (String × FirewallRule)) (hacc : HandlesNonEmpty acc) :
    HandlesNonEmpty (l.foldl
      (fun acc p =>
        let rule : FirewallRule :=
          ⟨p.2, p.1, .ban (some seconds), now,
            some ("ban_" ++ p.1.toString ++ "_" ++ toString now)⟩
        insertRule acc p.2 rule)
      acc) := by
  induction l generalizing acc with
  | nil => exact hacc
  | cons p rest ih =>
      exact ih _ (insertRule_pres _ _ _ ⟨_, rfl, ban_prefixed_ne_empty _ _⟩ hacc)

/-! ### C10: a failed unblock leaves the registry unchanged -/

/-- Claim C10: if `unblock(id)` returns an error — the id is absent, the
stored rule has no handle, or the executor delete fails — the rule
registry is left unchanged. -/
theorem C10_theorem (fw : Firewall) (execInput : ExecI) (id : String) (e : FwErr)
    (h : (fw.unblock execInput id).result = .error e) :
    (fw.unblock execInput id).fw = fw := by
  unfold Firewall.unblock at h ⊢
  cases hl : List.lookup id fw.rules with
  | none => simp [hl]
  | some r =>
      cases hh : r.handle with
      | none => simp [hl, hh]
      | some handle =>
          cases he : execInput (deleteCmd fw handle) with
          | error e' => simp [hl, hh, he]
          | ok u =>
              simp only [hl, hh, he] at h
              simp at h

/-- Witness for C10: unblocking an unknown id errors and the (empty)
registry is unchanged. -/
theorem C10_witness : (fwInput.unblock execIOk "nope").fw = fwInput :=
  C10_theorem fwInput execIOk "nope" (.msg "fail to get rule by id: nope") rfl

/-! ### C9: flush -/

/-- Claim C9 is false for the empty registry: `flush()` short-circuits
with `Ok(0)` before building any command, so no `flush chain` command is
sent. -/
theorem C9_counterexample :
    (fwInput.flush execIOk).cmds = []
    ∧ (fwInput.flush execIOk).result = .ok 0
    ∧ (fwInput.flush execIOk).cmds ≠ [flushCmd fwInput] := by
  refine ⟨rfl, rfl, ?_⟩
  decide

/-- C9 (amended): on a *non-empty* registry, `flush()` sends exactly one
`flush chain` command for the configured family/table/chain, clears the
registry, and returns the number of entries present before clearing; on
an empty registry it returns 0 without issuing any command and without
touching any state. -/
theorem C9_theorem (fw : Firewall) (execInput : ExecI) :
    (fw.rules = [] → fw.flush execInput = ⟨.ok 0, [], fw⟩)
    ∧ (fw.rules ≠ [] → execInput (flushCmd fw) = .ok () →
        (fw.flush execInput).cmds = [flushCmd fw]
        ∧ (fw.flush execInput).result = .ok fw.rules.length
        ∧ (fw.flush execInput).fw.rules = []) := by
  constructor
  · intro h
    unfold Firewall.flush
    simp [h]
  · intro h hexec
    have hlen : (fw.rules.length == 0) = false := by
      simp only [beq_eq_false_iff_ne, ne_eq, List.length_eq_zero]
      exact h
    unfold Firewall.flush
    simp [hlen, hexec]

/-- Witness for C9 (amended): flushing a one-entry registry issues the
single `flush chain` command, returns 1, and empties the registry;
flushing an empty registry is the identity with result 0. -/
theorem C9_witness :
    ((fwBanned.flush execIOk).cmds = [flushCmd fwBanned]
      ∧ (fwBanned.flush execIOk).result = .ok fwBanned.rules.length
      ∧ (fwBanned.flush execIOk).fw.rules = [])
    ∧ fwInput.flush execIOk = ⟨.ok 0, [], fwInput⟩ :=
  ⟨(C9_theorem fwBanned execIOk).2 (by decide) rfl,
   (C9_theorem fwInput execIOk).1 rfl⟩

/-! ### C7: table/chain initialization -/

/-- Claim C7: construction issues `add table` and `add chain` as one batch
of two commands; a `Timeout` failure of that batch is swallowed and
construction succeeds; any other batch error fails construction. -/
theorem C7_theorem (fw : Firewall) (execBatch : ExecB) :
    (fw.init_table_and_chain execBatch).2 = [initCommands fw]
    ∧ (initCommands fw).length = 2
    ∧ (execBatch (initCommands fw) = .error .timeout →
        (fw.init_table_and_chain execBatch).1 = .ok ()
        ∧ (fw.new true execBatch).1 = .ok fw)
    ∧ (∀ s, execBatch (initCommands fw) = .ok s →
        (fw.init_table_and_chain execBatch).1 = .ok ()
        ∧ (fw.new true execBatch).1 = .ok fw)
    ∧ (∀ e, e ≠ NftError.timeout → execBatch (initCommands fw) = .error e →
        (fw.init_table_and_chain execBatch).1 = .error (.nft e)
        ∧ (fw.new true execBatch).1 = .error (.nft e)) := by
  refine ⟨?_, rfl, ?_, ?_, ?_⟩
  · unfold Firewall.init_table_and_chain
    cases h : execBatch (initCommands fw) with
    | ok s => simp [h]
    | error e => cases e <;> simp [h]
  · intro h
    unfold Firewall.new Firewall.init_table_and_chain
    simp [h]
  · intro s h
    unfold Firewall.new Firewall.init_table_and_chain
    simp [h]
  · intro e hne h
    unfold Firewall.new Firewall.init_table_and_chain
    cases e with
    | timeout => exact absurd rfl hne
    | executorExited => simp [h]
    | parseError m => simp [h]
    | other m => simp [h]

/-- Witness for C7: a timed-out init batch still lets construction
succeed, while a non-timeout batch error aborts it. -/
theorem C7_witness :
    ((fwInput.init_table_and_chain execBTimeout).1 = .ok ()
      ∧ (fwInput.new true execBTimeout).1 = .ok fwInput)
    ∧ ((fwInput.init_table_and_chain execBFail).1 = .error (.nft (.other "boom"))
      ∧ (fwInput.new true execBFail).1 = .error (.nft (.other "boom"))) :=
  ⟨(C7_theorem fwInput execBTimeout).2.2.1 rfl,
   (C7_theorem fwInput execBFail).2.2.2.2 (.other "boom") (by decide) rfl⟩

/-! ### C8: shape of emitted ban commands -/

/-- Claim C8 is false for `batch_ban`: with the hook set to `Output`, the
claim requires the direction selector `daddr`, but `batch_ban` hard-wires
`saddr`.  The batch issued for `10.0.0.1` consists of exactly the
hard-wired command, which differs from the claimed form. -/
theorem C8_counterexample :
    (fwOutput.batch_ban execBOk 0 [ip1] 60).cmds = [batchBanCmd fwOutput ip1]
    ∧ batchBanCmd fwOutput ip1 ≠ specBanCmdForm fwOutput ip1
    ∧ batchBanCmd fwOutput ip1
        = "add rule inet traffic_filter traffic_input ip saddr 10.0.0.1 drop"
    ∧ specBanCmdForm fwOutput ip1
        = "add rule inet traffic_filter traffic_input ip daddr 10.0.0.1 drop" := by
  refine ⟨rfl, by decide, by decide, by decide⟩

/-- C8 (amended): ban commands emitted through `create_ban_rule` (used by
`ban` and `infinity_ban`) have the form
`add rule <family> <table> <chain> <ipv> <dir> <ip> drop` with `<dir>`
derived from the hook (`Input ⇒ saddr`, `Output ⇒ daddr`) and `<ipv>`
from the address family; `batch_ban` commands have the same form but with
`<dir>` always `saddr`, regardless of the hook. -/
theorem C8_theorem (fw : Firewall) (ip : IpAddr) :
    banCmd fw ip = specBanCmdForm fw ip
    ∧ batchBanCmd fw ip = specBanCmdDir fw ip "saddr" := by
  constructor
  · rfl
  · have key4 : ∀ B : String, B ++ "ip saddr" = B ++ "ip" ++ " " ++ "saddr" := by
      intro B
      have h : ("ip" : String) ++ (" " ++ "saddr") = "ip saddr" := rfl
      rw [String.append_assoc, String.append_assoc, h]
    have key6 : ∀ B : String, B ++ "ip6 saddr" = B ++ "ip6" ++ " " ++ "saddr" := by
      intro B
      have h : ("ip6" : String) ++ (" " ++ "saddr") = "ip6 saddr" := rfl
      rw [String.append_assoc, String.append_assoc, h]
    cases ip with
    | v4 s =>
        simp only [batchBanCmd, specBanCmdDir, ipVersionStr, IpAddr.toString]
        rw [key4]
    | v6 s =>
        simp only [batchBanCmd, specBanCmdDir, ipVersionStr, IpAddr.toString]
        rw [key6]

/-- Witness for C8 (amended) at the `Output`-hook fixture: `create_ban_rule`
uses `daddr`, `batch_ban` uses `saddr`. -/
theorem C8_witness :
    banCmd fwOutput ip1 = specBanCmdForm fwOutput ip1
    ∧ batchBanCmd fwOutput ip1 = specBanCmdDir fwOutput ip1 "saddr" :=
  C8_theorem fwOutput ip1

/-! ### C4: semantics of `ban` -/

/-- Claim C4: `ban(ip, seconds)` delegates to `infinity_ban` when
`seconds` is `None`; with `Some secs`, if any registered `Ban` entry for
`ip` has `created_at + secs > now` the call returns that entry's id
without issuing any firewall command or changing state; otherwise it
issues the drop command and, on success of executor, parser and handle
extraction, registers the new rule under id `ban_<ip>_<expiry_epoch>`
with `expiry_epoch = now + secs`. -/
theorem C4_theorem (fw : Firewall) (exec : ExecE) (parse : ParseO)
    (now : Int) (ip : IpAddr) :
    (fw.ban exec parse now ip none = fw.infinity_ban exec parse now ip)
    ∧ (∀ secs : Nat,
        (∃ p ∈ fw.rules, p.2.ip = ip ∧ p.2.rule_type.isBan = true
          ∧ p.2.created_at + (secs : Int) > now) →
        ∃ p ∈ fw.rules, p.2.ip = ip ∧ p.2.rule_type.isBan = true
          ∧ p.2.created_at + (secs : Int) > now
          ∧ (fw.ban exec parse now ip (some secs)).result = .ok p.2.id
          ∧ (fw.ban exec parse now ip (some secs)).cmds = []
          ∧ (fw.ban exec parse now ip (some secs)).fw = fw)
    ∧ (∀ secs : Nat,
        (¬ ∃ p ∈ fw.rules, p.2.ip = ip ∧ p.2.rule_type.isBan = true
          ∧ p.2.created_at + (secs : Int) > now) →
        (fw.ban exec parse now ip (some secs)).cmds = [banCmd fw ip]
        ∧ (∀ out objs handle, exec (banCmd fw ip) = .ok out →
            parse out = .ok objs → extractHandle objs = .ok handle →
            (fw.ban exec parse now ip (some secs)).result
                = .ok ("ban_" ++ ip.toString ++ "_" ++ toString (now + (secs : Int)))
            ∧ (fw.ban exec parse now ip (some secs)).fw
                = { fw with rules :=
                    (insertRule fw.rules
                      ("ban_" ++ ip.toString ++ "_" ++ toString (now + (secs : Int)))
                      ⟨"ban_" ++ ip.toString ++ "_" ++ toString (now + (secs : Int)), ip,
                        .ban (some secs), now, some handle⟩) })) := by
  refine ⟨rfl, ?_, ?_⟩
  · intro secs hex
    have hs : (fw.rules.find? (fun p =>
        decide (p.2.ip = ip) && p.2.rule_type.isBan
          && decide (p.2.created_at + (secs : Int) > now))).isSome := by
      apply List.find?_isSome.mpr
      obtain ⟨p, hp, h1, h2, h3⟩ := hex
      exact ⟨p, hp, by simp [h1, h2, h3]⟩
    obtain ⟨p, hfind⟩ := Option.isSome_iff_exists.mp hs
    have hmem := List.mem_of_find?_eq_some hfind
    have hpred := List.find?_some hfind
    simp only [Bool.and_eq_true, decide_eq_true_eq] at hpred
    obtain ⟨⟨h1, h2⟩, h3⟩ := hpred
    refine ⟨p, hmem, h1, h2, h3, ?_, ?_, ?_⟩
    all_goals
      unfold Firewall.ban
      simp [hfind]
  · intro secs hnone
    have hfind : fw.rules.find? (fun p =>
        decide (p.2.ip = ip) && p.2.rule_type.isBan
          && decide (p.2.created_at + (secs : Int) > now)) = none := by
      apply List.find?_eq_none.mpr
      intro x hx hpred
      simp only [Bool.and_eq_true, decide_eq_true_eq] at hpred
      obtain ⟨⟨h1, h2⟩, h3⟩ := hpred
      exact hnone ⟨x, hx, h1, h2, h3⟩
    constructor
    · unfold Firewall.ban
      simp only [hfind]
      cases he : exec (banCmd fw ip) with
      | error e => simp [he]
      | ok out =>
          cases hp : parse out with
          | error e => simp [he, hp]
          | ok objs =>
              cases hh : extractHandle objs with
              | error e => simp [he, hp, hh]
              | ok handle => simp [he, hp, hh]
    · intro out objs handle hexec hparse hext
      unfold Firewall.ban
      simp [hfind, hexec, hparse, hext]

/-- Witness for C4: on the fixture registry holding a still-active ban of
`10.0.0.1` (expiry 100, now 50), `ban` returns without commands; on an
empty registry it issues exactly the drop command; `seconds = None`
delegates to `infinity_ban`. -/
theorem C4_witness :
    fwBanned.ban execEOk parseOk 50 ip1 none
        = fwBanned.infinity_ban execEOk parseOk 50 ip1
    ∧ (fwBanned.ban execEOk parseOk 50 ip1 (some 60)).cmds = []
    ∧ (fwInput.ban execEOk parseOk 50 ip1 (some 60)).cmds = [banCmd fwInput ip1] := by
  refine ⟨(C4_theorem fwBanned execEOk parseOk 50 ip1).1, ?_, ?_⟩
  · obtain ⟨p, _, _, _, _, _, hcmds, _⟩ :=
      (C4_theorem fwBanned execEOk parseOk 50 ip1).2.1 60
        ⟨("ban_10.0.0.1_100", entryB), by decide, by decide, by decide, by decide⟩
    exact hcmds
  · exact ((C4_theorem fwInput execEOk parseOk 50 ip1).2.2 60 (by decide)).1

/-! ### C6: registry invariant and unblock behaviour -/

/-- `ban` preserves the non-empty-handle registry invariant. -/
theorem ban_preserves_handles (fw : Firewall) (exec : ExecE) (parse : ParseO)
    (now : Int) (ip : IpAddr) (seconds : Option Nat)
    (hfw : HandlesNonEmpty fw.rules) :
    HandlesNonEmpty ((fw.ban exec parse now ip seconds).fw.rules) := by
  cases seconds with
  | none =>
      show HandlesNonEmpty ((fw.infinity_ban exec parse now ip).fw.rules)
      simp only [Firewall.infinity_ban]
      split
      · exact hfw
      · split
        · exact hfw
        · split
          · exact hfw
          · split
            · exact hfw
            · rename_i heq
              obtain ⟨n, rfl⟩ := extractHandle_ok _ _ heq
              exact insertRule_pres _ _ _ ⟨_, rfl, nat_repr_ne_empty n⟩ hfw
  | some secs =>
      simp only [Firewall.ban]
      split
      · exact hfw
      · split
        · exact hfw
        · split
          · exact hfw
          · split
            · exact hfw
            · rename_i heq
              obtain ⟨n, rfl⟩ := extractHandle_ok _ _ heq
              exact insertRule_pres _ _ _ ⟨_, rfl, nat_repr_ne_empty n⟩ hfw

/-- `infinity_ban` preserves the non-empty-handle registry invariant. -/
theorem infinity_ban_preserves_handles (fw : Firewall) (exec : ExecE)
    (parse : ParseO) (now : Int) (ip : IpAddr)
    (hfw : HandlesNonEmpty fw.rules) :
    HandlesNonEmpty ((fw.infinity_ban exec parse now ip).fw.rules) :=
  ban_preserves_handles fw exec parse now ip none hfw

/-- `infinity_limit` preserves the non-empty-handle registry invariant. -/
theorem infinity_limit_preserves_handles (fw : Firewall) (exec : ExecE)
    (parse : ParseO) (now : Int) (ip : IpAddr) (kbps : Nat) (burst : Option Nat)
    (hfw : HandlesNonEmpty fw.rules) :
    HandlesNonEmpty ((fw.infinity_limit exec parse now ip kbps burst).fw.rules) := by
  simp only [Firewall.infinity_limit]
  split
  · exact hfw
  · split
    · exact hfw
    · split
      · exact hfw
      · split
        · exact hfw
        · rename_i heq
          obtain ⟨n, rfl⟩ := extractHandle_ok _ _ heq
          exact insertRule_pres _ _ _ ⟨_, rfl, nat_repr_ne_empty n⟩ hfw

/-- `limit` preserves the non-empty-handle registry invariant. -/
theorem limit_preserves_handles (fw : Firewall) (exec : ExecE) (parse : ParseO)
    (now : Int) (ip : IpAddr) (kbps : Nat) (burst : Option Nat)
    (seconds : Option Nat) (hfw : HandlesNonEmpty fw.rules) :
    HandlesNonEmpty ((fw.limit exec parse now ip kbps burst seconds).fw.rules) := by
  cases seconds with
  | none =>
      exact infinity_limit_preserves_handles fw exec parse now ip kbps burst hfw
  | some secs =>
      simp only [Firewall.limit]
      split
      · exact hfw
      · split
        · exact hfw
        · split
          · exact hfw
          · split
            · exact hfw
            · rename_i heq
              obtain ⟨n, rfl⟩ := extractHandle_ok _ _ heq
              exact insertRule_pres _ _ _ ⟨_, rfl, nat_repr_ne_empty n⟩ hfw

/-- `batch_ban` preserves the non-empty-handle registry invariant. -/
theorem batch_ban_preserves_handles (fw : Firewall) (execBatch : ExecB)
    (now : Int) (ips : List IpAddr) (seconds : Nat)
    (hfw : HandlesNonEmpty fw.rules) :
    HandlesNonEmpty ((fw.batch_ban execBatch now ips seconds).fw.rules) := by
  simp only [Firewall.batch_ban]
  split
  · exact hfw
  · exact batchBan_fold_pres now seconds _ _ hfw

/-- `unblock` preserves the non-empty-handle registry invariant. -/
theorem unblock_preserves_handles (fw : Firewall) (execInput : ExecI)
    (id : String) (hfw : HandlesNonEmpty fw.rules) :
    HandlesNonEmpty ((fw.unblock execInput id).fw.rules) := by
  simp only [Firewall.unblock]
  split
  · exact hfw
  · split
    · exact hfw
    · split
      · exact hfw
      · split
        · exact fun p hp => hfw p (List.mem_of_mem_filter hp)
        · exact fun p hp => hfw p (List.mem_of_mem_filter hp)

/-- `flush` preserves the non-empty-handle registry invariant. -/
theorem flush_preserves_handles (fw : Firewall) (execInput : ExecI)
    (hfw : HandlesNonEmpty fw.rules) :
    HandlesNonEmpty ((fw.flush execInput).fw.rules) := by
  simp only [Firewall.flush]
  split
  · exact hfw
  · split
    · exact hfw
    · exact fun p hp => absurd hp (List.not_mem_nil p)

/-- Claim C6: the non-empty-handle invariant — every id in the registry
maps to a rule with a non-empty handle — holds of the empty initial
registry and is preserved by every registry-mutating operation; and
`unblock(id)` on a present id (whose handle, by the invariant, exists)
issues exactly one `delete rule … handle H` command and removes the id
from the registry. -/
theorem C6_theorem :
    HandlesNonEmpty ([] : List (String × FirewallRule))
    ∧ (∀ fw : Firewall, HandlesNonEmpty fw.rules →
        (∀ exec parse now ip seconds,
            HandlesNonEmpty ((fw.ban exec parse now ip seconds).fw.rules))
        ∧ (∀ exec parse now ip,
            HandlesNonEmpty ((fw.infinity_ban exec parse now ip).fw.rules))
        ∧ (∀ exec parse now ip kbps burst seconds,
            HandlesNonEmpty ((fw.limit exec parse now ip kbps burst seconds).fw.rules))
        ∧ (∀ exec parse now ip kbps burst,
            HandlesNonEmpty ((fw.infinity_limit exec parse now ip kbps burst).fw.rules))
        ∧ (∀ execBatch now ips seconds,
            HandlesNonEmpty ((fw.batch_ban execBatch now ips seconds).fw.rules))
        ∧ (∀ execInput id,
            HandlesNonEmpty ((fw.unblock execInput id).fw.rules))
        ∧ (∀ execInput,
            HandlesNonEmpty ((fw.flush execInput).fw.rules)))
    ∧ (∀ (fw : Firewall) (execInput : ExecI) (id : String) (r : FirewallRule)
        (h : String),
        List.lookup id fw.rules = some r → r.handle = some h →
        execInput (deleteCmd fw h) = .ok () →
        (fw.unblock execInput id).cmds = [deleteCmd fw h]
        ∧ (fw.unblock execInput id).result = .ok ()
        ∧ (fw.unblock execInput id).fw.rules
            = fw.rules.filter (fun p => !(p.1 == id))
        ∧ List.lookup id ((fw.unblock execInput id).fw.rules) = none) := by
  refine ⟨fun p hp => absurd hp (List.not_mem_nil p), ?_, ?_⟩
  · intro fw hfw
    exact ⟨fun exec parse now ip seconds =>
        ban_preserves_handles fw exec parse now ip seconds hfw,
      fun exec parse now ip =>
        infinity_ban_preserves_handles fw exec parse now ip hfw,
      fun exec parse now ip kbps burst seconds =>
        limit_preserves_handles fw exec parse now ip kbps burst seconds hfw,
      fun exec parse now ip kbps burst =>
        infinity_limit_preserves_handles fw exec parse now ip kbps burst hfw,
      fun execBatch now ips seconds =>
        batch_ban_preserves_handles fw execBatch now ips seconds hfw,
      fun execInput id => unblock_preserves_handles fw execInput id hfw,
      fun execInput => flush_preserves_handles fw execInput hfw⟩
  · intro fw execInput id r h hlookup hhandle hexec
    have hred : fw.unblock execInput id
        = ⟨.ok (), [deleteCmd fw h],
            { fw with rules := fw.rules.filter (fun p => !(p.1 == id)) }⟩ := by
      unfold Firewall.unblock
      simp [hlookup, hhandle, hexec]
    rw [hred]
    exact ⟨rfl, rfl, rfl, lookup_filter_self fw.rules id⟩

/-- Witness for C6: unblocking the fixture entry (handle `7`) issues
exactly the one delete command and removes the id. -/
theorem C6_witness :
    (fwBanned.unblock execIOk "ban_10.0.0.1_100").cmds = [deleteCmd fwBanned "7"]
    ∧ (fwBanned.unblock execIOk "ban_10.0.0.1_100").result = .ok ()
    ∧ List.lookup "ban_10.0.0.1_100"
        ((fwBanned.unblock execIOk "ban_10.0.0.1_100").fw.rules) = none := by
  have h := C6_theorem.2.2 fwBanned execIOk "ban_10.0.0.1_100" entryB "7" rfl rfl rfl
  exact ⟨h.1, h.2.1, h.2.2.2⟩

end Traffic
